import Mathlib

/-!
Formal model of the fireclass mapping and query core.

This file is a shallow embedding of the two core source modules:
  - fireclass/values_conversion.py  (the Value Codec)
  - fireclass/document.py           (the Record base class and Query Builder)

Python runtime values that can occur as document field values are modelled by
the inductive type Value; declared dataclass field annotations by FieldType;
Python exceptions by PyError.  Stateful methods on Document instances are
modelled by explicit state passing: each method takes the instance and the
process-wide client state (an Option Store, none when no firestore client was
supplied) and returns the instance after the call, the new state, and either
a result or the raised error.
-/

namespace Fireclass

/-- Underlying scalar value of a Python Enum member (fireclass only ever
produces int- or str-valued enums: `_enum_to` returns `field_value.value`). -/
inductive Scalar where
  | sInt (n : Int)
  | sStr (s : String)
deriving DecidableEq

/-- A Python Enum class: its name and its members in definition order, each a
(member name, underlying value) pair.  Python collapses aliases at class
creation, so distinct members of a real enum class have distinct values;
that fact is carried separately as `valuesNodup` where proofs need it. -/
structure EnumDef where
  ename : String
  members : List (String × Scalar)
deriving DecidableEq

/-- A datetime.datetime value: whether tzinfo is set, plus an abstract tick
count standing for the actual point in time. -/
structure Datetime where
  tzAware : Bool
  ticks : Int
deriving DecidableEq

/-- A Python runtime value that can appear as a document field value. -/
inductive Value where
  | vStr (s : String)
  | vInt (n : Int)
  | vBool (b : Bool)
  | vNone
  | vDatetime (d : Datetime)
  | vEnum (e : EnumDef) (memberName : String) (memberValue : Scalar)
  | vDict (entries : List (String × Value))
  | vList (elems : List Value)

/-- Inject an enum member's underlying value into Value (what Python's
`member.value` evaluates to at runtime). -/
def scalarToValue : Scalar → Value
  | .sInt n => .vInt n
  | .sStr s => .vStr s

/-- Models the Python test `value is None`. -/
def Value.isNone : Value → Bool
  | .vNone => true
  | _ => false

/-- A declared dataclass field annotation, i.e. the possible values of
`dataclasses.Field.type` in this library: str, int, bool, datetime, an Enum
subclass, Optional[T] (= Union[T, None]), Dict[str, T], List[T]. -/
inductive FieldType where
  | fStr
  | fInt
  | fBool
  | fDatetime
  | fEnum (e : EnumDef)
  | fOptional (t : FieldType)
  | fDict (t : FieldType)
  | fList (t : FieldType)
deriving DecidableEq

/-- A dataclasses.Field: its name and declared type. -/
structure Field where
  name : String
  type : FieldType
deriving DecidableEq

/-- A Document subclass: its class name (`cls.__name__`, which also names the
Firestore collection) and its dataclass fields in declaration order. -/
structure RecordType where
  rname : String
  rfields : List Field
deriving DecidableEq

/-- Distinct members of a real Python enum class always have distinct
underlying values (aliases are collapsed at class creation time). -/
def EnumDef.valuesNodup (e : EnumDef) : Bool :=
  decide ((e.members.map Prod.snd).Nodup)

/-- True when the declared type is not an Optional[T] wrapper. -/
def FieldType.notOptional : FieldType → Bool
  | .fOptional _ => false
  | _ => true

/-- Python exceptions raised by the modelled code.  The first four are all
`TypeError` in Python, distinguished there only by their messages:
`unknownFieldError cls f` is `TypeError("The supplied field_path 'f' does not
exist on 'cls'")` from `Document._find_field`; `receivedValueError v f` is
`TypeError("Received a value 'v' for field 'f'")` from the decoding handlers;
`suppliedValueError v f t` is the `TypeError("The supplied value 'v' has type
... but the corresponding field 'f' requires values of type ...")` from
`Document.where`; `notAClassError` is the `TypeError("issubclass() arg 1 must
be a class")` that Python itself raises when the decoding handlers call
`issubclass` on a typing generic such as `Optional[...]` or `Dict[...]`.
`enumValueError v e` is the `ValueError` raised by `EnumCls(v)` when no member
of enum class `e` has value `v`. -/
inductive PyError where
  | unknownFieldError (clsName : String) (fieldName : String)
  | receivedValueError (value : Value) (fieldName : String)
  | suppliedValueError (value : Value) (fieldName : String) (ftype : FieldType)
  | notAClassError
  | enumValueError (value : Value) (enumName : String)
  | documentNotFound
  | documentNotCreatedInDatabase
  | documentAlreadyCreatedInDatabase
  | firestoreClientNotConfigured
  | storeDocumentAlreadyExists
  | storeDocumentMissing

/-- Models calling a Python Enum class on a raw value, `EnumCls(raw)`: returns
the first member (in definition order) whose underlying value is `raw`, and
raises ValueError when there is none. -/
def enumCall (e : EnumDef) (raw : Scalar) : Except PyError Value :=
  match e.members.find? (fun m => decide (m.2 = raw)) with
  | some m => .ok (.vEnum e m.1 m.2)
  | none => .error (.enumValueError (scalarToValue raw) e.ename)

/-- Models the Python expression `issubclass(t, Enum)` for a declared field
type `t`: returns the enum class when `t` is one, `none` for the other plain
classes (str, int, bool, datetime), and raises TypeError for typing generics
(`Optional[...]`, `Dict[...]`, `List[...]`), which are not classes. -/
def issubclassOfEnum : FieldType → Except PyError (Option EnumDef)
  | .fEnum e => .ok (some e)
  | .fStr => .ok none
  | .fInt => .ok none
  | .fBool => .ok none
  | .fDatetime => .ok none
  | .fOptional _ => .error .notAClassError
  | .fDict _ => .error .notAClassError
  | .fList _ => .error .notAClassError

/-- The `_bool` handler registered on `convert_value_from_firestore`: a bool
raw value is accepted only for a bool or Optional[bool] declared type. -/
def conv_bool (field_value : Bool) (field_description : Field) : Except PyError Value :=
  if field_description.type = .fBool ∨ field_description.type = .fOptional .fBool then
    .ok (.vBool field_value)
  else
    .error (.receivedValueError (.vBool field_value) field_description.name)

/-- The `_str_to_enum` handler registered on `convert_value_from_firestore`:
a str raw value passes through for str / Optional[str] declared types, is
looked up as an enum member when the declared type is an Enum subclass, and
otherwise raises TypeError.  Note the `issubclass` call raises TypeError
itself when the declared type is a typing generic, e.g. Optional[SomeEnum]. -/
def str_to_enum (field_value : String) (field_description : Field) : Except PyError Value :=
  if field_description.type = .fStr then
    .ok (.vStr field_value)
  else if field_description.type = .fOptional .fStr then
    .ok (.vStr field_value)
  else
    match issubclassOfEnum field_description.type with
    | .ok (some enum_sub_cls) => enumCall enum_sub_cls (.sStr field_value)
    | .ok none => .error (.receivedValueError (.vStr field_value) field_description.name)
    | .error e => .error e

/-- The `_int_to_enum` handler registered on `convert_value_from_firestore`:
an int raw value passes through for int / Optional[int] declared types, is
looked up as an enum member for Enum or Optional[Enum] declared types, and
otherwise raises TypeError.  The Optional[T] branch models the source's
`__origin__ == Union` test, which in this library's type grammar holds
exactly for Optional (Dict and List have origins dict and list). -/
def int_to_enum (field_value : Int) (field_description : Field) : Except PyError Value :=
  if field_description.type = .fInt then
    .ok (.vInt field_value)
  else
    match field_description.type with
    | .fOptional inner =>
      if inner = .fInt then
        .ok (.vInt field_value)
      else
        match issubclassOfEnum inner with
        | .ok (some enum_cls) => enumCall enum_cls (.sInt field_value)
        | .ok none => .error (.receivedValueError (.vInt field_value) field_description.name)
        | .error e => .error e
    | t =>
      match issubclassOfEnum t with
      | .ok (some enum_cls) => enumCall enum_cls (.sInt field_value)
      | .ok none => .error (.receivedValueError (.vInt field_value) field_description.name)
      | .error e => .error e

/-- `convert_value_from_firestore(field_value, field_description)`: a
singledispatch function with handlers registered for bool, str and int raw
values (bool is dispatched before int because bool is the more specific
class); every other runtime type falls to the default handler, which returns
the value unchanged. -/
def convert_value_from_firestore (field_value : Value) (field_description : Field) :
    Except PyError Value :=
  match field_value with
  | .vBool b => conv_bool b field_description
  | .vStr s => str_to_enum s field_description
  | .vInt n => int_to_enum n field_description
  | v => .ok v

mutual
/-- `convert_value_to_firestore(field_value)`: a singledispatch function with
handlers registered for dict (encode each value, keys unchanged), list
(encode each element) and Enum (replace the member by `member.value`); every
other runtime type, datetimes included, falls to the default handler, which
returns the value unchanged. -/
def convert_value_to_firestore : Value → Value
  | .vDict entries => .vDict (encodeEntries entries)
  | .vList elems => .vList (encodeList elems)
  | .vEnum _ _ memberValue => scalarToValue memberValue
  | v => v

/-- The loop body of the `_dict_to` handler: encode every value of the dict,
keys passed through unchanged. -/
def encodeEntries : List (String × Value) → List (String × Value)
  | [] => []
  | (k, v) :: rest => (k, convert_value_to_firestore v) :: encodeEntries rest

/-- The comprehension of the `_list_to` handler: encode every element. -/
def encodeList : List Value → List Value
  | [] => []
  | v :: rest => convert_value_to_firestore v :: encodeList rest
end

/-- The loop of `Document._find_field`: `corresponding_field` starts as None
and is overwritten by every declared field whose name matches, so the loop
keeps the last match.  (Field objects are always truthy, so the source's
`if not corresponding_field` test is exactly an is-None test.) -/
def find_field_loop (field_name : String) : List Field → Option Field → Option Field
  | [], acc => acc
  | f :: rest, acc => find_field_loop field_name rest (if f.name = field_name then some f else acc)

/-- `Document._find_field(field_name)`: scan the dataclass fields and raise
TypeError naming the class and the requested field when none matches. -/
def find_field (cls : RecordType) (field_name : String) : Except PyError Field :=
  match find_field_loop field_name cls.rfields none with
  | some f => .ok f
  | none => .error (.unknownFieldError cls.rname field_name)

/-- The Firestore collection backing one Document subclass: the stored
documents as (document id, encoded field mapping) pairs. -/
structure Store where
  docs : List (String × List (String × Value))

/-- Fetch the document stored at an id, if any. -/
def Store.lookup (s : Store) (docId : String) : Option (List (String × Value)) :=
  match s.docs.find? (fun kv => decide (kv.1 = docId)) with
  | some kv => some kv.2
  | none => none

/-- Store a document at an id, replacing any previous document there. -/
def Store.insert (s : Store) (docId : String) (data : List (String × Value)) : Store :=
  ⟨(docId, data) :: s.docs.filter (fun kv => !(decide (kv.1 = docId)))⟩

/-- Remove the document at an id; a no-op when none is stored there
(Firestore's delete is idempotent). -/
def Store.erase (s : Store) (docId : String) : Store :=
  ⟨s.docs.filter (fun kv => !(decide (kv.1 = docId)))⟩

/-- An in-memory Document instance: its identity slot `_id` (None until the
instance is saved to or retrieved from the DB) and its dataclass field values
as returned by `dataclasses.asdict(self)`, in declaration order. -/
structure DocRecord where
  _id : Option String
  fields : List (String × Value)

/-- A freshly constructed instance: `__post_init__` sets `self._id = None`. -/
def DocRecord.fresh (fields : List (String × Value)) : DocRecord :=
  ⟨none, fields⟩

/-- `Document.create(document_id=None)`.  The steps, in source order: raise
DocumentAlreadyCreatedInDatabase when `self.id` is already set; obtain the
client (raises FirestoreClientNotConfigured when none was supplied); build
the document reference, whose id is the explicit `document_id` when given and
a store-generated id (the `generated_id` argument) otherwise; encode the
fields with `convert_value_to_firestore(dataclasses.asdict(self))`; ask the
store to create the document, which fails when one already exists at that
reference; only then assign `self._id = document_ref.id`.  Returns the
instance after the call, the client state after the call, and the outcome. -/
def DocRecord.create (self : DocRecord) (document_id : Option String)
    (generated_id : String) (env : Option Store) :
    DocRecord × Option Store × Except PyError Unit :=
  if self._id.isSome then
    (self, env, .error .documentAlreadyCreatedInDatabase)
  else
    match env with
    | none => (self, none, .error .firestoreClientNotConfigured)
    | some store =>
      let ref_id := document_id.getD generated_id
      let encoded_dict := encodeEntries self.fields
      match store.lookup ref_id with
      | some _ => (self, some store, .error .storeDocumentAlreadyExists)
      | none =>
          ({ self with _id := some ref_id }, some (store.insert ref_id encoded_dict), .ok ())

/-- `Document.update()`.  Raises DocumentNotCreatedInDatabase when `self.id`
is unset; otherwise encodes the fields and overwrites the document at
`self.id` (the store raises when no document exists there), then re-assigns
`self._id = document_ref.id`, whose value is the same `self.id` the document
reference was built from. -/
def DocRecord.update (self : DocRecord) (env : Option Store) :
    DocRecord × Option Store × Except PyError Unit :=
  match self._id with
  | none => (self, env, .error .documentNotCreatedInDatabase)
  | some doc_id =>
    match env with
    | none => (self, none, .error .firestoreClientNotConfigured)
    | some store =>
      let encoded_dict := encodeEntries self.fields
      match store.lookup doc_id with
      | none => (self, some store, .error .storeDocumentMissing)
      | some _ =>
          ({ self with _id := some doc_id }, some (store.insert doc_id encoded_dict), .ok ())

/-- `Document.delete_document(document_id)` (classmethod): unconditionally
delete the document at the id; Firestore's delete is idempotent. -/
def delete_document (document_id : String) (env : Option Store) :
    Option Store × Except PyError Unit :=
  match env with
  | none => (none, .error .firestoreClientNotConfigured)
  | some store => (some (store.erase document_id), .ok ())

/-- `Document.delete()`: raises DocumentNotCreatedInDatabase when `self.id`
is unset, otherwise delegates to `delete_document(self.id)`. -/
def DocRecord.delete (self : DocRecord) (env : Option Store) :
    Option Store × Except PyError Unit :=
  match self._id with
  | none => (env, .error .documentNotCreatedInDatabase)
  | some doc_id => delete_document doc_id env

/-- The loop of `Document._from_firestore_document`: for every (field name,
raw value) item of the snapshot's dict, resolve the declared field with
`_find_field` and decode the raw value with `convert_value_from_firestore`. -/
def decodeItems (cls : RecordType) : List (String × Value) → Except PyError (List (String × Value))
  | [] => .ok []
  | (field_name, value) :: rest =>
    match find_field cls field_name with
    | .error e => .error e
    | .ok field_description =>
      match convert_value_from_firestore value field_description with
      | .error e => .error e
      | .ok decoded =>
        match decodeItems cls rest with
        | .error e => .error e
        | .ok tail => .ok ((field_name, decoded) :: tail)

/-- `Document._from_firestore_document(firestore_document)`: decode every
stored field, construct the instance from the decoded dict, and set its
`_id` to the snapshot's id. -/
def from_firestore_document (cls : RecordType) (snapshotId : String)
    (snapshotData : List (String × Value)) : Except PyError DocRecord :=
  match decodeItems cls snapshotData with
  | .error e => .error e
  | .ok decoded_dict => .ok ⟨some snapshotId, decoded_dict⟩

/-- `Document.get_document(document_id)` (classmethod): fetch the snapshot at
the id; raise DocumentNotFound when it does not exist; otherwise decode it
with `_from_firestore_document`. -/
def get_document (cls : RecordType) (document_id : String) (env : Option Store) :
    Except PyError DocRecord :=
  match env with
  | none => .error .firestoreClientNotConfigured
  | some store =>
    match store.lookup document_id with
    | none => .error .documentNotFound
    | some raw => from_firestore_document cls document_id raw

/-- The underlying `google.cloud.firestore_v1.Query`, an immutable query
description: the collection it ranges over, its accumulated (field path,
operator, value) predicates, and its row limit when one was set.  Its
`where` and `limit` both return a new query. -/
structure FSQuery where
  collection : String
  predicates : List (String × String × Value)
  qlimit : Option Nat

/-- `firestore_v1.Query.where(field_path, op_string, value)`: a new query
with the predicate appended. -/
def FSQuery.addWhere (q : FSQuery) (field_path op_string : String) (value : Value) : FSQuery :=
  { q with predicates := q.predicates ++ [(field_path, op_string, value)] }

/-- `firestore_v1.Query.limit(count)`: a new query with the limit set. -/
def FSQuery.limitTo (q : FSQuery) (count : Nat) : FSQuery :=
  { q with qlimit := some count }

/-- The `_DocumentQuery` wrapper: the Document subclass the results decode
into, plus the wrapped firestore query. -/
structure DocumentQuery where
  document_cls : RecordType
  firestore_query : FSQuery

/-- `_DocumentQuery.limit(count)`.  The source builds
`self._firestore_query.limit(count)` and returns a fresh `_DocumentQuery`
around it, assigning nothing to `self`; the method is modelled as returning
(self after the call, result), with self after the call translated from the
absence of any assignment. -/
def queryLimit (self : DocumentQuery) (count : Nat) : DocumentQuery × DocumentQuery :=
  (self, ⟨self.document_cls, self.firestore_query.limitTo count⟩)

/-- `_DocumentQuery.where(field_path, op_string, value)`: returns a fresh
`_DocumentQuery` around `self._firestore_query.where(...)`, assigning nothing
to `self`; modelled as (self after the call, result) like `queryLimit`. -/
def queryWhere (self : DocumentQuery) (field_path op_string : String) (value : Value) :
    DocumentQuery × DocumentQuery :=
  (self, ⟨self.document_cls, self.firestore_query.addWhere field_path op_string value⟩)

/-- Models the Python comparison `declared_type == type(value)` performed by
`Document.where`: `type(value)` is the value's runtime class, so the
comparison holds only when the declared annotation is itself that plain
class.  An Optional/Dict/List annotation is a typing generic and never equals
a runtime class, and `type(None)` is NoneType, which never equals a declared
class in this grammar. -/
def declaredEqualsRuntime : FieldType → Value → Bool
  | .fStr, .vStr _ => true
  | .fInt, .vInt _ => true
  | .fBool, .vBool _ => true
  | .fDatetime, .vDatetime _ => true
  | .fEnum e, .vEnum e2 _ _ => decide (e = e2)
  | _, _ => false

/-- `Document.where(field_path, op_string, value)` (classmethod), in source
order: resolve the field with `_find_field` (raises the unknown-field
TypeError); type-check the value — for an Optional[T] declared type the value
must be None or of runtime type T, otherwise it must be of the declared
runtime type — and raise the supplied-value TypeError on mismatch; obtain
the collection (raises FirestoreClientNotConfigured when no client was
supplied); encode the value with `convert_value_to_firestore` and return a
`_DocumentQuery` over the collection query with that single predicate.  The
source's sanity check for non-Optional Union annotations can never fire in
this type grammar, where the only Union form is Optional[T].  The local flag
`should_raise_type_error` the source computes before raising is extracted
into its own definition. -/
def should_raise_type_error (t : FieldType) (value : Value) : Bool :=
  match t with
  | .fOptional inner => !(declaredEqualsRuntime inner value) && !(value.isNone)
  | t2 => !(declaredEqualsRuntime t2 value)

/-- See `should_raise_type_error` for the commentary on `Document.where`;
this definition is the method body itself. -/
def documentWhere (cls : RecordType) (field_path : String) (op_string : String)
    (value : Value) (env : Option Store) : Except PyError DocumentQuery := do
  let corresponding_field ← find_field cls field_path
  if should_raise_type_error corresponding_field.type value then
    .error (.suppliedValueError value corresponding_field.name corresponding_field.type)
  else
    match env with
    | none => .error .firestoreClientNotConfigured
    | some _ =>
      let final_value := convert_value_to_firestore value
      .ok ⟨cls, ⟨cls.rname, [(field_path, op_string, final_value)], none⟩⟩

/-- Typing judgment for the supported field types of the data model: a value
`v` inhabits a declared type `t`.  An enum member must actually be a member
of its class; `Optional[T]` is inhabited by None and by every value of `T`;
`Dict[str, T]` and `List[T]` by mappings/sequences of values of `T`. -/
inductive HasType : Value → FieldType → Prop where
  | str (s : String) : HasType (.vStr s) .fStr
  | int (n : Int) : HasType (.vInt n) .fInt
  | bool (b : Bool) : HasType (.vBool b) .fBool
  | datetime (d : Datetime) : HasType (.vDatetime d) .fDatetime
  | enum (e : EnumDef) (n : String) (val : Scalar) (hmem : (n, val) ∈ e.members) :
      HasType (.vEnum e n val) (.fEnum e)
  | optNone (t : FieldType) : HasType .vNone (.fOptional t)
  | optSome (v : Value) (t : FieldType) (h : HasType v t) : HasType v (.fOptional t)
  | dict (entries : List (String × Value)) (t : FieldType)
      (h : ∀ p ∈ entries, HasType p.2 t) : HasType (.vDict entries) (.fDict t)
  | list (elems : List Value) (t : FieldType)
      (h : ∀ v ∈ elems, HasType v t) : HasType (.vList elems) (.fList t)

/-- True when no enum type occurs anywhere inside the declared type. -/
def FieldType.noEnumInside : FieldType → Bool
  | .fEnum _ => false
  | .fOptional t => t.noEnumInside
  | .fDict t => t.noEnumInside
  | .fList t => t.noEnumInside
  | _ => true

/-- Well-formedness of a declared type as it can actually arise from Python
annotations: enum classes have pairwise distinct member values (aliases are
collapsed at class creation) and Optional is never directly nested (Python
flattens `Optional[Optional[T]]` to `Optional[T]`). -/
def FieldType.wf : FieldType → Bool
  | .fStr => true
  | .fInt => true
  | .fBool => true
  | .fDatetime => true
  | .fEnum e => e.valuesNodup
  | .fOptional t => t.notOptional && t.wf
  | .fDict t => t.wf
  | .fList t => t.wf

/-- True when the enum member's underlying value is an int. -/
def Scalar.isInt : Scalar → Bool
  | .sInt _ => true
  | .sStr _ => false

/-- The declared types whose values survive the encode/decode round trip:
scalars and top-level enums always do; under Optional, an enum survives only
when its members are int-valued (`_str_to_enum` has no Optional[Enum] branch,
so a string-valued member would hit the `issubclass` TypeError); inside Dict
or List no enum survives at all, because decoding does not recurse into
mappings or sequences. -/
def FieldType.roundTripSafe : FieldType → Bool
  | .fStr => true
  | .fInt => true
  | .fBool => true
  | .fDatetime => true
  | .fEnum _ => true
  | .fOptional (.fEnum e) => e.members.all (fun m => m.2.isInt)
  | .fOptional t => t.roundTripSafe
  | .fDict t => t.noEnumInside
  | .fList t => t.noEnumInside

/-- The declared types that are neither int / Optional[int] nor an enum
class, direct or wrapped in Optional: the types for which decoding an int
raw value raises. -/
def intDecodeOtherType : FieldType → Bool
  | .fInt => false
  | .fEnum _ => false
  | .fOptional .fInt => false
  | .fOptional (.fEnum _) => false
  | _ => true

/-- The enum of the test suite: `UserMembershipLevelEnum`. -/
def membershipEnum : EnumDef :=
  ⟨"UserMembershipLevelEnum", [("NONE", .sInt 1), ("INTERMEDIATE", .sInt 2), ("FULL", .sInt 3)]⟩

/-- The `User` Document subclass of the test suite: one field of each
supported scalar kind. -/
def userCls : RecordType :=
  ⟨"User",
    [⟨"email_address", .fStr⟩,
     ⟨"family_members_count", .fInt⟩,
     ⟨"last_login_date", .fDatetime⟩,
     ⟨"membership", .fEnum membershipEnum⟩,
     ⟨"is_active", .fBool⟩]⟩

/-- The `UserWithOptionalTypes` Document subclass of the test suite. -/
def optUserCls : RecordType :=
  ⟨"UserWithOptionalTypes",
    [⟨"email_address", .fOptional .fStr⟩,
     ⟨"family_members_count", .fOptional .fInt⟩,
     ⟨"last_login_date", .fOptional .fDatetime⟩,
     ⟨"membership", .fOptional (.fEnum membershipEnum)⟩,
     ⟨"is_active", .fOptional .fBool⟩]⟩

/-- A stored raw document for `User`, as the wire format would hold it. -/
def userRaw : List (String × Value) :=
  [("email_address", .vStr "a@b.com"),
   ("membership", .vInt 2),
   ("is_active", .vBool true)]

/-- A one-document store for the `User` collection. -/
def userStore : Store := ⟨[("u1", userRaw)]⟩

/-- The decoded instance `get_document` produces from `userStore` at "u1". -/
def userDoc1 : DocRecord :=
  ⟨some "u1",
   [("email_address", .vStr "a@b.com"),
    ("membership", .vEnum membershipEnum "INTERMEDIATE" (.sInt 2)),
    ("is_active", .vBool true)]⟩

/-- A fresh `User` instance used by the lifecycle witnesses. -/
def userInst : DocRecord :=
  DocRecord.fresh
    [("email_address", .vStr "test@test.com"),
     ("family_members_count", .vInt 5),
     ("last_login_date", .vDatetime ⟨true, 0⟩),
     ("membership", .vEnum membershipEnum "FULL" (.sInt 3)),
     ("is_active", .vBool true)]

/-! ## Helper lemmas -/

theorem find_field_loop_no_match (field_name : String) :
    ∀ (l : List Field) (acc : Option Field),
      (∀ f ∈ l, f.name ≠ field_name) → find_field_loop field_name l acc = acc := by
  intro l
  induction l with
  | nil => intro acc _; rfl
  | cons f rest ih =>
    intro acc hno
    have hf : f.name ≠ field_name := hno f (List.mem_cons_self f rest)
    simp only [find_field_loop, if_neg hf]
    exact ih acc (fun g hg => hno g (List.mem_cons_of_mem f hg))

theorem find_field_loop_eq_first (field_name : String) :
    ∀ (l : List Field), (l.map Field.name).Nodup →
      find_field_loop field_name l none = l.find? (fun f => decide (f.name = field_name)) := by
  intro l
  induction l with
  | nil => intro _; rfl
  | cons f rest ih =>
    intro hnodup
    rw [List.map_cons, List.nodup_cons] at hnodup
    by_cases hf : f.name = field_name
    · have hrest : ∀ g ∈ rest, g.name ≠ field_name := by
        intro g hg hgname
        have hmem : g.name ∈ rest.map Field.name := List.mem_map_of_mem Field.name hg
        rw [hgname, ← hf] at hmem
        exact hnodup.1 hmem
      simp only [find_field_loop, if_pos hf]
      rw [find_field_loop_no_match field_name rest (some f) hrest]
      simp [List.find?, hf]
    · simp only [find_field_loop, if_neg hf]
      rw [ih hnodup.2]
      simp [List.find?, hf]

theorem find_field_of_no_match (cls : RecordType) (field_name : String)
    (hno : ∀ f ∈ cls.rfields, f.name ≠ field_name) :
    find_field cls field_name = .error (.unknownFieldError cls.rname field_name) := by
  unfold find_field
  rw [find_field_loop_no_match field_name cls.rfields none hno]

/-! ## C10 -/

/-- C10: decoding a None raw value against any field descriptor, optional or
not, returns None unchanged and never raises: None is not bool, str or int,
so it dispatches to the default handler of `convert_value_from_firestore`,
which passes it through. -/
theorem none_decode_spec (field_description : Field) :
    convert_value_from_firestore .vNone field_description = .ok .vNone := rfl

/-! ## C2 -/

/-- C2 counterexample: encoding the timezone-naive timestamp
`Datetime.mk false 0` does not fail at all — it succeeds and returns the
timestamp unchanged, refuting the claim that encoding a naive timestamp
always fails with an InvalidValue error. -/
theorem timestamp_encode_cex :
    (Datetime.mk false 0).tzAware = false ∧
    convert_value_to_firestore (.vDatetime (Datetime.mk false 0)) =
      .vDatetime (Datetime.mk false 0) :=
  ⟨rfl, rfl⟩

/-- C2 (amended): encoding a timestamp always succeeds and returns the
timestamp unchanged, whether timezone-aware or naive:
`convert_value_to_firestore` registers no datetime handler, so every
datetime falls to the default pass-through case; no timezone check exists. -/
theorem timestamp_encode_spec (d : Datetime) :
    convert_value_to_firestore (.vDatetime d) = .vDatetime d := rfl

/-! ## C8 -/

/-- C8: `_DocumentQuery.where` and `_DocumentQuery.limit` leave the receiver
unchanged (same document class, collection, predicates and limit before and
after the call) and return a new query value: `where` appends its predicate
to a copy, `limit` sets the limit on a copy. -/
theorem query_immutability_spec (q : DocumentQuery) (f op : String) (v : Value) (n : Nat) :
    (queryWhere q f op v).1 = q ∧
    (queryLimit q n).1 = q ∧
    (queryWhere q f op v).2.document_cls = q.document_cls ∧
    (queryWhere q f op v).2.firestore_query.collection = q.firestore_query.collection ∧
    (queryWhere q f op v).2.firestore_query.predicates
      = q.firestore_query.predicates ++ [(f, op, v)] ∧
    (queryWhere q f op v).2.firestore_query.qlimit = q.firestore_query.qlimit ∧
    (queryLimit q n).2.document_cls = q.document_cls ∧
    (queryLimit q n).2.firestore_query.collection = q.firestore_query.collection ∧
    (queryLimit q n).2.firestore_query.predicates = q.firestore_query.predicates ∧
    (queryLimit q n).2.firestore_query.qlimit = some n :=
  ⟨rfl, rfl, rfl, rfl, rfl, rfl, rfl, rfl, rfl, rfl⟩

/-! ## C3 -/

/-- C3: `_find_field` resolves a field name to the first declared field with
that name — its loop keeps the last match, which under the distinctness of
dataclass field names is the unique, hence first, match — and raises an
unknown-field error carrying the class name and the requested field name
when no declared field matches. -/
theorem resolve_field_spec (cls : RecordType) (field_name : String)
    (hnodup : (cls.rfields.map Field.name).Nodup) :
    find_field cls field_name =
      match cls.rfields.find? (fun f => decide (f.name = field_name)) with
      | some f => .ok f
      | none => .error (.unknownFieldError cls.rname field_name) := by
  unfold find_field
  rw [find_field_loop_eq_first field_name cls.rfields hnodup]

/-- C3 witness: on the test suite's `User` class, resolving "membership"
returns its field descriptor and resolving a missing name raises the
unknown-field error naming "User" and the requested field. -/
theorem resolve_field_witness :
    find_field userCls "membership" = .ok ⟨"membership", .fEnum membershipEnum⟩ ∧
    find_field userCls "wrong_field_name"
      = .error (.unknownFieldError "User" "wrong_field_name") := by
  have h1 := resolve_field_spec userCls "membership" (by decide)
  have h2 := resolve_field_spec userCls "wrong_field_name" (by decide)
  exact ⟨by rw [h1]; rfl, by rw [h2]; rfl⟩

/-! ## C5 -/

/-- C5: the identity lifecycle — a freshly constructed instance has an unset
identity slot; `create` on an instance whose identity is set fails with
DocumentAlreadyCreatedInDatabase; `update` and `delete` on an instance whose
identity is unset fail with DocumentNotCreatedInDatabase; and a successful
`create` stores the created document's id (the explicit id when one was
given, the store-generated id otherwise) into the identity slot. -/
theorem identity_lifecycle_spec :
    (∀ fs, (DocRecord.fresh fs)._id = none) ∧
    (∀ (self : DocRecord) document_id generated_id env s, self._id = some s →
      (self.create document_id generated_id env).2.2
        = .error .documentAlreadyCreatedInDatabase) ∧
    (∀ (self : DocRecord) env, self._id = none →
      (self.update env).2.2 = .error .documentNotCreatedInDatabase) ∧
    (∀ (self : DocRecord) env, self._id = none →
      (self.delete env).2 = .error .documentNotCreatedInDatabase) ∧
    (∀ (self : DocRecord) document_id generated_id env self2 env2,
      self.create document_id generated_id env = (self2, env2, .ok ()) →
      self2._id = some (document_id.getD generated_id)) := by
  refine ⟨fun _ => rfl, ?_, ?_, ?_, ?_⟩
  · intro self document_id generated_id env s hid
    simp [DocRecord.create, hid]
  · intro self env hid
    simp [DocRecord.update, hid]
  · intro self env hid
    simp [DocRecord.delete, hid]
  · intro self document_id generated_id env self2 env2 heq
    unfold DocRecord.create at heq
    by_cases hid : self._id.isSome
    · simp [hid] at heq
    · simp only [hid, if_neg, Bool.false_eq_true, not_false_eq_true, if_false] at heq
      cases env with
      | none => simp at heq
      | some store =>
        simp only at heq
        cases hl : store.lookup (document_id.getD generated_id) with
        | some d => simp [hl] at heq
        | none =>
          simp only [hl] at heq
          have := congrArg (fun p => p.1._id) heq
          simpa using this.symm

/-- C5 witness: a fresh `User` instance has no id; creating it with the
explicit id "123" succeeds and sets its id to "123"; creating again fails
with DocumentAlreadyCreatedInDatabase; update and delete on a fresh instance
fail with DocumentNotCreatedInDatabase. -/
theorem identity_lifecycle_witness :
    userInst._id = none ∧
    ((userInst.create (some "123") "gen1" (some ⟨[]⟩)).1._id = some "123") ∧
    (({ userInst with _id := some "123" } : DocRecord).create none "gen2"
        (some ⟨[]⟩)).2.2 = .error .documentAlreadyCreatedInDatabase ∧
    (userInst.update (some ⟨[]⟩)).2.2 = .error .documentNotCreatedInDatabase ∧
    (userInst.delete (some ⟨[]⟩)).2 = .error .documentNotCreatedInDatabase := by
  refine ⟨rfl, ?_, ?_, ?_, ?_⟩
  · have h := identity_lifecycle_spec.2.2.2.2 userInst (some "123") "gen1" (some ⟨[]⟩)
      (userInst.create (some "123") "gen1" (some ⟨[]⟩)).1
      (userInst.create (some "123") "gen1" (some ⟨[]⟩)).2.1 (by rfl)
    exact h
  · exact identity_lifecycle_spec.2.1 { userInst with _id := some "123" } none "gen2"
      (some ⟨[]⟩) "123" rfl
  · exact identity_lifecycle_spec.2.2.1 userInst (some ⟨[]⟩) rfl
  · exact identity_lifecycle_spec.2.2.2.1 userInst (some ⟨[]⟩) rfl

/-! ## C6 -/

/-- C6: when `create` or `update` raises — at the precondition check, the
missing-client check, or the store write — the in-memory identity slot is
left unchanged, because the source assigns `self._id` only after the write
succeeds; and a successful `update` re-assigns `self._id` to the id of the
document reference it built from `self.id`, leaving its value unchanged. -/
theorem write_failure_frame_spec :
    (∀ (self : DocRecord) document_id generated_id env e,
      (self.create document_id generated_id env).2.2 = .error e →
      (self.create document_id generated_id env).1._id = self._id) ∧
    (∀ (self : DocRecord) env e,
      (self.update env).2.2 = .error e →
      (self.update env).1._id = self._id) ∧
    (∀ (self : DocRecord) env,
      (self.update env).2.2 = .ok () →
      (self.update env).1._id = self._id) := by
  refine ⟨?_, ?_, ?_⟩
  · intro self document_id generated_id env e herr
    unfold DocRecord.create at herr ⊢
    by_cases hid : self._id.isSome
    · simp [hid]
    · cases env with
      | none => simp [hid]
      | some store =>
        cases hl : store.lookup (document_id.getD generated_id) with
        | some d => simp [hid, hl]
        | none => simp [hid, hl] at herr
  · intro self env e herr
    unfold DocRecord.update at herr ⊢
    cases hid : self._id with
    | none => simp [hid]
    | some doc_id =>
      cases env with
      | none => simp [hid]
      | some store =>
        cases hl : store.lookup doc_id with
        | none => simp [hid, hl]
        | some d => simp [hid, hl] at herr
  · intro self env hok
    unfold DocRecord.update at hok ⊢
    cases hid : self._id with
    | none => simp [hid] at hok
    | some doc_id =>
      cases env with
      | none => simp [hid] at hok
      | some store =>
        cases hl : store.lookup doc_id with
        | none => simp [hid, hl] at hok
        | some d => simp [hid, hl]

/-- C6 witness: creating an already-persisted instance fails and leaves its
id unchanged; updating a fresh instance fails and leaves its id unset; a
successful update of a persisted instance leaves its id unchanged. -/
theorem write_failure_frame_witness :
    (({ userInst with _id := some "123" } : DocRecord).create none "gen"
        (some ⟨[]⟩)).1._id = some "123" ∧
    (userInst.update (some ⟨[]⟩)).1._id = none ∧
    (({ userDoc1 with _id := some "u1" } : DocRecord).update (some userStore)).1._id
      = some "u1" := by
  refine ⟨?_, ?_, ?_⟩
  · exact write_failure_frame_spec.1 { userInst with _id := some "123" } none "gen"
      (some ⟨[]⟩) .documentAlreadyCreatedInDatabase rfl
  · exact write_failure_frame_spec.2.1 userInst (some ⟨[]⟩)
      .documentNotCreatedInDatabase rfl
  · exact write_failure_frame_spec.2.2 { userDoc1 with _id := some "u1" }
      (some userStore) rfl

/-! ## C4 -/

theorem should_raise_of_notOptional (t : FieldType) (v : Value)
    (h : t.notOptional = true) :
    should_raise_type_error t v = !(declaredEqualsRuntime t v) := by
  cases t <;> first
  | rfl
  | simp [FieldType.notOptional] at h

theorem documentWhere_of_ok (cls : RecordType) (f op : String) (v : Value)
    (env : Option Store) (fd : Field) (hfd : find_field cls f = .ok fd) :
    documentWhere cls f op v env =
      if should_raise_type_error fd.type v then
        .error (.suppliedValueError v fd.name fd.type)
      else
        match env with
        | none => .error .firestoreClientNotConfigured
        | some _ =>
            .ok ⟨cls, ⟨cls.rname, [(f, op, convert_value_to_firestore v)], none⟩⟩ := by
  unfold documentWhere
  rw [hfd]
  rfl

/-- C4: `Document.where` fails with the unknown-field error (carrying the
class name and the requested field name) when the field is not declared; for
an Optional[T] declared field a None value is always accepted, and a
non-None value is accepted exactly when its runtime type is T, failing with
the supplied-value TypeError otherwise; for a non-optional declared field
the value is accepted exactly when its runtime type equals the declared
type, failing with the supplied-value TypeError otherwise.  The error cases
hold for any client state because `where` raises them before touching the
collection; the success cases are stated with a configured client. -/
theorem where_validation_spec (cls : RecordType) (f op : String) (v : Value) :
    (∀ env, (∀ fl ∈ cls.rfields, fl.name ≠ f) →
      documentWhere cls f op v env = .error (.unknownFieldError cls.rname f)) ∧
    (∀ fd inner, find_field cls f = .ok fd → fd.type = .fOptional inner →
      (∀ store, v = .vNone →
        documentWhere cls f op v (some store)
          = .ok ⟨cls, ⟨cls.rname, [(f, op, .vNone)], none⟩⟩) ∧
      (∀ env, v.isNone = false → declaredEqualsRuntime inner v = false →
        documentWhere cls f op v env
          = .error (.suppliedValueError v fd.name fd.type)) ∧
      (∀ store, declaredEqualsRuntime inner v = true →
        documentWhere cls f op v (some store)
          = .ok ⟨cls, ⟨cls.rname, [(f, op, convert_value_to_firestore v)], none⟩⟩)) ∧
    (∀ fd, find_field cls f = .ok fd → fd.type.notOptional = true →
      (∀ env, declaredEqualsRuntime fd.type v = false →
        documentWhere cls f op v env
          = .error (.suppliedValueError v fd.name fd.type)) ∧
      (∀ store, declaredEqualsRuntime fd.type v = true →
        documentWhere cls f op v (some store)
          = .ok ⟨cls, ⟨cls.rname, [(f, op, convert_value_to_firestore v)], none⟩⟩)) := by
  refine ⟨?_, ?_, ?_⟩
  · intro env hno
    unfold documentWhere
    rw [find_field_of_no_match cls f hno]
    rfl
  · intro fd inner hfd htype
    refine ⟨?_, ?_, ?_⟩
    · intro store hv
      subst hv
      rw [documentWhere_of_ok cls f op .vNone (some store) fd hfd, htype]
      simp [should_raise_type_error, Value.isNone, convert_value_to_firestore]
    · intro env hnone hdecl
      rw [documentWhere_of_ok cls f op v env fd hfd, htype]
      simp [should_raise_type_error, hnone, hdecl]
    · intro store hdecl
      rw [documentWhere_of_ok cls f op v (some store) fd hfd, htype]
      simp [should_raise_type_error, hdecl]
  · intro fd hfd hnotopt
    refine ⟨?_, ?_⟩
    · intro env hdecl
      rw [documentWhere_of_ok cls f op v env fd hfd,
        should_raise_of_notOptional fd.type v hnotopt]
      simp [hdecl]
    · intro store hdecl
      rw [documentWhere_of_ok cls f op v (some store) fd hfd,
        should_raise_of_notOptional fd.type v hnotopt]
      simp [hdecl]

/-- C4 witness, following the test suite: querying `User` on a non-existent
field name fails with the unknown-field error; querying the bool field
"is_active" with a string fails with the supplied-value TypeError; querying
the Optional[str] field of `UserWithOptionalTypes` with None succeeds. -/
theorem where_validation_witness :
    documentWhere userCls "wrong_field_name" "==" (.vStr "123") (some ⟨[]⟩)
      = .error (.unknownFieldError "User" "wrong_field_name") ∧
    documentWhere userCls "is_active" "==" (.vStr "not a bool") (some ⟨[]⟩)
      = .error (.suppliedValueError (.vStr "not a bool") "is_active" .fBool) ∧
    documentWhere optUserCls "email_address" "==" .vNone (some ⟨[]⟩)
      = .ok ⟨optUserCls, ⟨"UserWithOptionalTypes",
          [("email_address", "==", .vNone)], none⟩⟩ := by
  refine ⟨?_, ?_, ?_⟩
  · exact (where_validation_spec userCls "wrong_field_name" "==" (.vStr "123")).1
      (some ⟨[]⟩) (by decide)
  · exact ((where_validation_spec userCls "is_active" "==" (.vStr "not a bool")).2.2
      ⟨"is_active", .fBool⟩ rfl rfl).1 (some ⟨[]⟩) rfl
  · exact (((where_validation_spec optUserCls "email_address" "==" .vNone).2.1
      ⟨"email_address", .fOptional .fStr⟩ (.fStr) rfl rfl).1 ⟨[]⟩ rfl)

/-! ## C7 -/

theorem enumCall_of_mem (e : EnumDef) (n : String) (val : Scalar)
    (hnodup : e.valuesNodup = true) (hmem : (n, val) ∈ e.members) :
    enumCall e val = .ok (.vEnum e n val) := by
  have hnd : (e.members.map Prod.snd).Nodup := of_decide_eq_true hnodup
  unfold enumCall
  cases hfind : e.members.find? (fun m => decide (m.2 = val)) with
  | none =>
    exfalso
    have := List.find?_eq_none.mp hfind (n, val) hmem
    simp at this
  | some m =>
    have hm_mem : m ∈ e.members := List.mem_of_find?_eq_some hfind
    have hm_val : m.2 = val := by
      have := List.find?_some hfind
      simpa using this
    have heq : m = (n, val) :=
      List.inj_on_of_nodup_map hnd hm_mem hmem (by simp [hm_val])
    rw [heq]

/-- C7: decoding an int raw value n returns n unchanged when the declared
type is int or Optional[int]; returns the enum member whose underlying value
is n when the declared type is an enum class, direct or wrapped in Optional
(stated for the member carrying value n, which is unique because member
values are distinct); and raises a TypeError — the received-value TypeError,
or for Dict/List/Optional-of-generic declared types the TypeError Python's
`issubclass` itself raises — for every other declared type. -/
theorem int_decode_spec (n : Int) (fd : Field) :
    ((fd.type = .fInt ∨ fd.type = .fOptional .fInt) →
      convert_value_from_firestore (.vInt n) fd = .ok (.vInt n)) ∧
    (∀ e memberName,
      (fd.type = .fEnum e ∨ fd.type = .fOptional (.fEnum e)) →
      e.valuesNodup = true → (memberName, Scalar.sInt n) ∈ e.members →
      convert_value_from_firestore (.vInt n) fd
        = .ok (.vEnum e memberName (.sInt n))) ∧
    (intDecodeOtherType fd.type = true →
      convert_value_from_firestore (.vInt n) fd
          = .error (.receivedValueError (.vInt n) fd.name) ∨
      convert_value_from_firestore (.vInt n) fd = .error .notAClassError) := by
  refine ⟨?_, ?_, ?_⟩
  · rintro (htype | htype) <;>
      simp [convert_value_from_firestore, int_to_enum, htype]
  · rintro e memberName (htype | htype) hnodup hmem <;>
      simp [convert_value_from_firestore, int_to_enum, htype, issubclassOfEnum,
        enumCall_of_mem e memberName (.sInt n) hnodup hmem]
  · intro hother
    cases htype : fd.type with
    | fInt => rw [htype] at hother; simp [intDecodeOtherType] at hother
    | fEnum e => rw [htype] at hother; simp [intDecodeOtherType] at hother
    | fStr =>
      left; simp [convert_value_from_firestore, int_to_enum, htype, issubclassOfEnum]
    | fBool =>
      left; simp [convert_value_from_firestore, int_to_enum, htype, issubclassOfEnum]
    | fDatetime =>
      left; simp [convert_value_from_firestore, int_to_enum, htype, issubclassOfEnum]
    | fDict t =>
      right; simp [convert_value_from_firestore, int_to_enum, htype, issubclassOfEnum]
    | fList t =>
      right; simp [convert_value_from_firestore, int_to_enum, htype, issubclassOfEnum]
    | fOptional inner =>
      cases inner with
      | fInt => rw [htype] at hother; simp [intDecodeOtherType] at hother
      | fEnum e => rw [htype] at hother; simp [intDecodeOtherType] at hother
      | fStr =>
        left; simp [convert_value_from_firestore, int_to_enum, htype, issubclassOfEnum]
      | fBool =>
        left; simp [convert_value_from_firestore, int_to_enum, htype, issubclassOfEnum]
      | fDatetime =>
        left; simp [convert_value_from_firestore, int_to_enum, htype, issubclassOfEnum]
      | fDict t =>
        right; simp [convert_value_from_firestore, int_to_enum, htype, issubclassOfEnum]
      | fList t =>
        right; simp [convert_value_from_firestore, int_to_enum, htype, issubclassOfEnum]
      | fOptional t =>
        right; simp [convert_value_from_firestore, int_to_enum, htype, issubclassOfEnum]

/-- C7 witness: against the `User` field descriptors, decoding 2 for the int
field returns 2; decoding 2 for the enum field returns the INTERMEDIATE
member; decoding 2 for the str field raises the received-value TypeError. -/
theorem int_decode_witness :
    convert_value_from_firestore (.vInt 2) ⟨"family_members_count", .fInt⟩
      = .ok (.vInt 2) ∧
    convert_value_from_firestore (.vInt 2) ⟨"membership", .fEnum membershipEnum⟩
      = .ok (.vEnum membershipEnum "INTERMEDIATE" (.sInt 2)) ∧
    (convert_value_from_firestore (.vInt 2) ⟨"email_address", .fStr⟩
        = .error (.receivedValueError (.vInt 2) "email_address") ∨
      convert_value_from_firestore (.vInt 2) ⟨"email_address", .fStr⟩
        = .error .notAClassError) := by
  refine ⟨?_, ?_, ?_⟩
  · exact (int_decode_spec 2 ⟨"family_members_count", .fInt⟩).1 (Or.inl rfl)
  · exact (int_decode_spec 2 ⟨"membership", .fEnum membershipEnum⟩).2.1
      membershipEnum "INTERMEDIATE" (Or.inl rfl) (by decide) (by decide)
  · exact (int_decode_spec 2 ⟨"email_address", .fStr⟩).2.2 rfl

/-! ## C9 -/

theorem decodeItems_sound (cls : RecordType) :
    ∀ (raw out : List (String × Value)), decodeItems cls raw = .ok out →
      out.length = raw.length ∧
      ∀ i (hi : i < raw.length) (hj : i < out.length),
        (out.get ⟨i, hj⟩).1 = (raw.get ⟨i, hi⟩).1 ∧
        ∃ fd, find_field cls (raw.get ⟨i, hi⟩).1 = .ok fd ∧
          convert_value_from_firestore (raw.get ⟨i, hi⟩).2 fd
            = .ok (out.get ⟨i, hj⟩).2 := by
  intro raw
  induction raw with
  | nil =>
    intro out h
    simp only [decodeItems] at h
    cases h
    exact ⟨rfl, fun i hi _ => absurd hi (by simp)⟩
  | cons p rest ih =>
    intro out h
    obtain ⟨k, v⟩ := p
    simp only [decodeItems] at h
    cases hfd : find_field cls k with
    | error e => rw [hfd] at h; cases h
    | ok fd =>
      rw [hfd] at h
      dsimp only at h
      cases hdv : convert_value_from_firestore v fd with
      | error e => rw [hdv] at h; cases h
      | ok dv =>
        rw [hdv] at h
        dsimp only at h
        cases htail : decodeItems cls rest with
        | error e => rw [htail] at h; cases h
        | ok tail =>
          rw [htail] at h
          dsimp only at h
          cases h
          obtain ⟨hlen, hpoint⟩ := ih tail htail
          refine ⟨by simpa using hlen, ?_⟩
          intro i hi hj
          cases i with
          | zero => exact ⟨rfl, fd, hfd, hdv⟩
          | succ i2 =>
            exact hpoint i2 (Nat.lt_of_succ_lt_succ (by simpa using hi))
              (Nat.lt_of_succ_lt_succ (by simpa using hj))

/-- C9: `get_document` fails with DocumentNotFound when no document is
stored at the id — in particular at an id just deleted by
`delete_document` — and on success returns an instance whose identity slot
is the requested id and whose field list is, entry by entry, the stored raw
mapping decoded through `convert_value_from_firestore` against the field
descriptor `_find_field` resolves for the stored field name. -/
theorem get_decode_spec (cls : RecordType) (store : Store) (document_id : String) :
    (store.lookup document_id = none →
      get_document cls document_id (some store) = .error .documentNotFound) ∧
    (∀ raw doc, store.lookup document_id = some raw →
      get_document cls document_id (some store) = .ok doc →
      doc._id = some document_id ∧
      decodeItems cls raw = .ok doc.fields ∧
      doc.fields.length = raw.length ∧
      ∀ i (hi : i < raw.length) (hj : i < doc.fields.length),
        (doc.fields.get ⟨i, hj⟩).1 = (raw.get ⟨i, hi⟩).1 ∧
        ∃ fd, find_field cls (raw.get ⟨i, hi⟩).1 = .ok fd ∧
          convert_value_from_firestore (raw.get ⟨i, hi⟩).2 fd
            = .ok (doc.fields.get ⟨i, hj⟩).2) ∧
    (∀ store2, delete_document document_id (some store) = (some store2, .ok ()) →
      get_document cls document_id (some store2) = .error .documentNotFound) := by
  refine ⟨?_, ?_, ?_⟩
  · intro hnone
    simp [get_document, hnone]
  · intro raw doc hsome hok
    rw [get_document, hsome] at hok
    unfold from_firestore_document at hok
    dsimp only at hok
    cases hdec : decodeItems cls raw with
    | error e => rw [hdec] at hok; cases hok
    | ok decoded =>
      rw [hdec] at hok
      dsimp only at hok
      cases hok
      obtain ⟨hlen, hpoint⟩ := decodeItems_sound cls raw decoded hdec
      exact ⟨rfl, rfl, hlen, hpoint⟩
  · intro store2 hdel
    have hstore2 : store2 = store.erase document_id := by
      have h1 := congrArg Prod.fst hdel
      simp only [delete_document] at h1
      injection h1 with h1
      exact h1.symm
    subst hstore2
    have hlook : (store.erase document_id).lookup document_id = none := by
      unfold Store.erase Store.lookup
      cases hfind : (store.docs.filter
          (fun kv => !(decide (kv.1 = document_id)))).find? (fun kv => decide (kv.1 = document_id)) with
      | none => rfl
      | some kv =>
        exfalso
        have hpred := List.find?_some hfind
        have hmem := List.mem_of_find?_eq_some hfind
        have hfil := List.of_mem_filter hmem
        simp at hpred hfil
        exact hfil hpred
    simp [get_document, hlook]

/-- C9 witness: in a store holding one `User` document "u1", fetching a
missing id fails with DocumentNotFound; fetching "u1" succeeds with the
identity slot set to "u1" and each raw field decoded against the `User`
descriptors (in particular the raw int 2 decoded to the INTERMEDIATE enum
member); and fetching "u1" again after deleting it fails with
DocumentNotFound. -/
theorem get_decode_witness :
    get_document userCls "missing" (some userStore) = .error .documentNotFound ∧
    userDoc1._id = some "u1" ∧
    decodeItems userCls userRaw = .ok userDoc1.fields ∧
    get_document userCls "u1"
        ((delete_document "u1" (some userStore)).1) = .error .documentNotFound := by
  refine ⟨?_, ?_, ?_, ?_⟩
  · exact (get_decode_spec userCls userStore "missing").1 rfl
  · exact ((get_decode_spec userCls userStore "u1").2.1 userRaw userDoc1 rfl rfl).1
  · exact ((get_decode_spec userCls userStore "u1").2.1 userRaw userDoc1 rfl rfl).2.1
  · exact (get_decode_spec userCls userStore "u1").2.2
      ((delete_document "u1" (some userStore)).1.getD ⟨[]⟩) rfl

/-! ## C1 -/

theorem encodeEntries_congr_id :
    ∀ (entries : List (String × Value)),
      (∀ p ∈ entries, convert_value_to_firestore p.2 = p.2) →
      encodeEntries entries = entries := by
  intro entries
  induction entries with
  | nil => intro _; rfl
  | cons p rest ih =>
    intro h
    obtain ⟨k, v⟩ := p
    simp only [encodeEntries]
    rw [h (k, v) (List.mem_cons_self _ _),
      ih (fun q hq => h q (List.mem_cons_of_mem _ hq))]

theorem encodeList_congr_id :
    ∀ (elems : List Value),
      (∀ v ∈ elems, convert_value_to_firestore v = v) →
      encodeList elems = elems := by
  intro elems
  induction elems with
  | nil => intro _; rfl
  | cons v rest ih =>
    intro h
    simp only [encodeList]
    rw [h v (List.mem_cons_self _ _),
      ih (fun w hw => h w (List.mem_cons_of_mem _ hw))]

theorem encode_id_of_noEnum :
    ∀ {v : Value} {t : FieldType}, HasType v t → t.noEnumInside = true →
      convert_value_to_firestore v = v := by
  intro v t ht
  induction ht with
  | str s => intro _; rfl
  | int n => intro _; rfl
  | bool b => intro _; rfl
  | datetime d => intro _; rfl
  | enum e n val hmem => intro hno; simp [FieldType.noEnumInside] at hno
  | optNone t2 => intro _; rfl
  | optSome v2 t2 h ih =>
    intro hno
    exact ih (by simpa [FieldType.noEnumInside] using hno)
  | dict entries t2 h ih =>
    intro hno
    have hent : encodeEntries entries = entries :=
      encodeEntries_congr_id entries
        (fun p hp => ih p hp (by simpa [FieldType.noEnumInside] using hno))
    simp [convert_value_to_firestore, hent]
  | list elems t2 h ih =>
    intro hno
    have helems : encodeList elems = elems :=
      encodeList_congr_id elems
        (fun w hw => ih w hw (by simpa [FieldType.noEnumInside] using hno))
    simp [convert_value_to_firestore, helems]

/-- C1 counterexample: the round trip fails for a supported composite type.
The type List[UserMembershipLevelEnum] is well formed and the singleton list
holding the FULL member inhabits it; encoding that list yields the raw list
[3], but decoding a raw list dispatches to the default pass-through handler
of `convert_value_from_firestore`, which does not recurse into elements, so
the raw [3] comes back as [3] instead of [FULL]. -/
theorem value_roundtrip_cex :
    FieldType.wf (.fList (.fEnum membershipEnum)) = true ∧
    HasType (.vList [.vEnum membershipEnum "FULL" (.sInt 3)])
      (.fList (.fEnum membershipEnum)) ∧
    convert_value_from_firestore
        (convert_value_to_firestore (.vList [.vEnum membershipEnum "FULL" (.sInt 3)]))
        ⟨"memberships", .fList (.fEnum membershipEnum)⟩
      ≠ .ok (.vList [.vEnum membershipEnum "FULL" (.sInt 3)]) := by
  refine ⟨rfl, ?_, ?_⟩
  · refine HasType.list _ _ ?_
    intro v hv
    rw [List.mem_singleton] at hv
    subst hv
    exact HasType.enum _ _ _ (by decide)
  · intro h
    have hred : convert_value_from_firestore
        (convert_value_to_firestore (.vList [.vEnum membershipEnum "FULL" (.sInt 3)]))
        ⟨"memberships", .fList (.fEnum membershipEnum)⟩
        = .ok (.vList [.vInt 3]) := rfl
    rw [hred] at h
    simp at h

/-- C1 (amended): decoding the encoding of a value returns the value for
every well-formed supported field type and every value of that type,
provided enum types occur only outside mappings and sequences (decoding does
not recurse into them) and an enum directly under Optional has int-valued
members (`_str_to_enum` handles no Optional[Enum] declared type, so a
string-valued member would raise). -/
theorem value_roundtrip_spec (t : FieldType) (v : Value) (fname : String)
    (hwf : t.wf = true) (hsafe : t.roundTripSafe = true) (ht : HasType v t) :
    convert_value_from_firestore (convert_value_to_firestore v) ⟨fname, t⟩ = .ok v := by
  cases ht with
  | str s => rfl
  | int n => rfl
  | bool b => rfl
  | datetime d => rfl
  | optNone t2 => rfl
  | enum e n val hmem =>
    have hnodup : e.valuesNodup = true := by simpa [FieldType.wf] using hwf
    cases val with
    | sInt k =>
      simp [convert_value_to_firestore, scalarToValue, convert_value_from_firestore,
        int_to_enum, issubclassOfEnum, enumCall_of_mem e n (.sInt k) hnodup hmem]
    | sStr s2 =>
      simp [convert_value_to_firestore, scalarToValue, convert_value_from_firestore,
        str_to_enum, issubclassOfEnum, enumCall_of_mem e n (.sStr s2) hnodup hmem]
  | optSome v2 t2 h =>
    have hparts : t2.notOptional = true ∧ t2.wf = true := by
      simpa [FieldType.wf, Bool.and_eq_true] using hwf
    cases h with
    | str s => rfl
    | int n => rfl
    | bool b => rfl
    | datetime d => rfl
    | optNone t3 => simp [FieldType.notOptional] at hparts
    | optSome v3 t3 h3 => simp [FieldType.notOptional] at hparts
    | enum e n val hmem =>
      have hnodup : e.valuesNodup = true := by
        simpa [FieldType.wf] using hparts.2
      have hint : val.isInt = true := by
        have hall : e.members.all (fun m => m.2.isInt) = true := by
          simpa [FieldType.roundTripSafe] using hsafe
        simpa using List.all_eq_true.mp hall (n, val) hmem
      cases val with
      | sStr s2 => simp [Scalar.isInt] at hint
      | sInt k =>
        simp [convert_value_to_firestore, scalarToValue, convert_value_from_firestore,
          int_to_enum, issubclassOfEnum, enumCall_of_mem e n (.sInt k) hnodup hmem]
    | dict entries t3 h3 =>
      have hno : t3.noEnumInside = true := by
        simpa [FieldType.roundTripSafe] using hsafe
      have henc : convert_value_to_firestore (.vDict entries) = .vDict entries :=
        encode_id_of_noEnum (HasType.dict entries t3 h3)
          (by simpa [FieldType.noEnumInside] using hno)
      rw [henc]
      rfl
    | list elems t3 h3 =>
      have hno : t3.noEnumInside = true := by
        simpa [FieldType.roundTripSafe] using hsafe
      have henc : convert_value_to_firestore (.vList elems) = .vList elems :=
        encode_id_of_noEnum (HasType.list elems t3 h3)
          (by simpa [FieldType.noEnumInside] using hno)
      rw [henc]
      rfl
  | dict entries t2 h2 =>
    have hno : t2.noEnumInside = true := by
      simpa [FieldType.roundTripSafe] using hsafe
    have henc : convert_value_to_firestore (.vDict entries) = .vDict entries :=
      encode_id_of_noEnum (HasType.dict entries t2 h2)
        (by simpa [FieldType.noEnumInside] using hno)
    rw [henc]
    rfl
  | list elems t2 h2 =>
    have hno : t2.noEnumInside = true := by
      simpa [FieldType.roundTripSafe] using hsafe
    have henc : convert_value_to_firestore (.vList elems) = .vList elems :=
      encode_id_of_noEnum (HasType.list elems t2 h2)
        (by simpa [FieldType.noEnumInside] using hno)
    rw [henc]
    rfl

/-- C1 witness: the FULL member of the test suite's enum, declared as
Optional[UserMembershipLevelEnum], survives the round trip: it encodes to
the raw int 3, which decodes back to the FULL member. -/
theorem value_roundtrip_witness :
    FieldType.wf (.fOptional (.fEnum membershipEnum)) = true ∧
    FieldType.roundTripSafe (.fOptional (.fEnum membershipEnum)) = true ∧
    HasType (.vEnum membershipEnum "FULL" (.sInt 3))
      (.fOptional (.fEnum membershipEnum)) ∧
    convert_value_from_firestore
        (convert_value_to_firestore (.vEnum membershipEnum "FULL" (.sInt 3)))
        ⟨"membership", .fOptional (.fEnum membershipEnum)⟩
      = .ok (.vEnum membershipEnum "FULL" (.sInt 3)) := by
  refine ⟨rfl, rfl, ?_, ?_⟩
  · exact HasType.optSome _ _ (HasType.enum _ _ _ (by decide))
  · exact value_roundtrip_spec _ _ "membership" rfl rfl
      (HasType.optSome _ _ (HasType.enum _ _ _ (by decide)))

end Fireclass
